import Mathlib

/-!
Verification development for the `vigyan` citation-preserving indexing and
retrieval pipeline.  The definitions below are a shallow embedding of the
Python source:

* `src/vigyan/parsers/grobid.py` — `_slugify`, the `doc_id` derivation in
  `GrobidParser._meta_from_tei`, and the page-span aggregation in
  `GrobidParser._parse_tei_to_paragraphs`;
* `src/vigyan/pipeline.py` — `ingest_pdf`;
* `src/vigyan/vectordb/lancedb_store.py` — `LanceDBVectorStore`
  (`dim`, `create_or_open`, `upsert_documents`, `upsert_chunks`,
  `_format_hit`).

External collaborators (the GROBID HTTP service, the lxml XML parser, the
LanceDB engine and the embedding provider) are modelled at their call
boundaries: the embedding functions they return are represented by their
dimension, parsed TEI nodes by their extracted text / id / coords fields,
and timestamps and uuid generation by explicit parameters.
-/

namespace Vigyan

/-! ### Python primitives -/

/-- Truthiness of a Python `str | None` value: `None` and `""` are falsy. -/
def pyTruthy : Option String → Bool
  | some s => s ≠ ""
  | none => false

/-- The characters matched by the regex class `\s` (modelled for the ASCII
whitespace characters; exotic Unicode whitespace is not modelled). -/
def pyIsSpace (c : Char) : Bool :=
  c = ' ' || c = '\t' || c = '\n' || c = '\r' || c = '\x0b' || c = '\x0c'

/-- Value of a list of decimal digit characters. -/
def digitsToNat (ds : List Char) : Nat :=
  ds.foldl (fun a c => 10 * a + (c.toNat - 48)) 0

/-- Split an optional leading sign off a character list, as Python `int`
does after stripping whitespace. -/
def pyIntSign : List Char → Int × List Char
  | '+' :: ds => (1, ds)
  | '-' :: ds => (-1, ds)
  | ds => (1, ds)

/-- Python `s.strip()` with no argument: remove leading and trailing
whitespace (ASCII whitespace modelled, as in `pyIsSpace`). -/
def pyStrip (s : String) : String :=
  String.mk (((s.data.dropWhile pyIsSpace).reverse.dropWhile pyIsSpace).reverse)

/-- Python `int(s)` on a string: strip surrounding whitespace, optional
sign, then decimal digits; `none` models the `ValueError` raised on any
other input.  (Underscore digit separators and non-ASCII decimal digits,
which CPython also accepts, are not modelled.) -/
def pyInt? (s : String) : Option Int :=
  let (sign, ds) := pyIntSign (pyStrip s).data
  if ds = [] then none
  else if ds.all Char.isDigit then some (sign * (digitsToNat ds : Int))
  else none

/-- Python `s.split(sep)` with a one-character separator, on character
lists: split at every occurrence, keeping empty pieces; `"".split(sep)`
is `[""]`. -/
def splitOnChar (sep : Char) : List Char → List (List Char)
  | [] => [[]]
  | c :: cs =>
    if c = sep then [] :: splitOnChar sep cs
    else
      match splitOnChar sep cs with
      | [] => [[c]]
      | w :: ws => (c :: w) :: ws

/-- Python `s.split(sep)` with a one-character separator. -/
def pySplit (sep : Char) (s : String) : List String :=
  (splitOnChar sep s.data).map String.mk

/-- Python `s.replace(a, b)` with one-character `a` and `b`. -/
def pyReplace (a b : Char) (s : String) : String :=
  String.mk (s.data.map (fun c => if c = a then b else c))

/-- Python `sep.join(parts)` with a one-character separator. -/
def pyJoin (sep : Char) (parts : List String) : String :=
  String.mk (List.intercalate [sep] (parts.map (·.data)))

/-! ### `_slugify` (grobid.py lines 152-159)

```python
def _slugify(s: str) -> str:
    s = s.lower()
    s = re.sub(r"[^a-z0-9\s-]", "", s)
    s = re.sub(r"\s+", "-", s)
    s = re.sub(r"-+", "-", s)
    return s.strip("-")
```
-/

/-- A character kept by `re.sub(r"[^a-z0-9\s-]", "", s)`. -/
def slugKeep (c : Char) : Bool :=
  ('a' ≤ c && c ≤ 'z') || ('0' ≤ c && c ≤ '9') || pyIsSpace c || c = '-'

/-- `re.sub` of every maximal run of `p`-characters by the single character
`r`; the flag records whether we are inside a run. -/
def replaceRunsAux (p : Char → Bool) (r : Char) : Bool → List Char → List Char
  | _, [] => []
  | inRun, c :: cs =>
    if p c then
      (if inRun then [] else [r]) ++ replaceRunsAux p r true cs
    else
      c :: replaceRunsAux p r false cs

/-- `re.sub(<run of p>+, r, l)`. -/
def replaceRuns (p : Char → Bool) (r : Char) (l : List Char) : List Char :=
  replaceRunsAux p r false l

/-- Python `s.strip(c)`: remove every leading and trailing occurrence of
the character `c`. -/
def stripChar (c : Char) (l : List Char) : List Char :=
  (((l.dropWhile (· = c)).reverse).dropWhile (· = c)).reverse

/-- `_slugify` from `grobid.py`.  `String.lower`/`Char.toLower` models
`str.lower` (ASCII case mapping; one-to-many Unicode lowercasings are not
modelled — every character they produce or consume here is removed by the
following substitution anyway, except for exotica such as U+212A). -/
def _slugify (s : String) : String :=
  let l1 := s.data.map Char.toLower
  let l2 := l1.filter slugKeep
  let l3 := replaceRuns pyIsSpace '-' l2
  let l4 := replaceRuns (· = '-') '-' l3
  String.mk (stripChar '-' l4)

/-! ### `doc_id` derivation (grobid.py lines 161-173)

```python
if doi:
    base_id = "doi-" + _slugify(doi.replace("/", "-"))
elif arxiv_id:
    base_id = "arxiv-" + _slugify(arxiv_id)
else:
    first_author_last = _slugify(
        (authors[0].split(" ")[-1] if authors else "doc")
    )
    year_part = str(year) if year else "nd"
    title_words = _slugify(title).split("-")[:6]
    base_id = f"{first_author_last}{year_part}-" + (
        "-".join(title_words) or "untitled"
    )
```

The metadata fields themselves (`title`, `authors`, `doi`, `arxiv_id`,
`year`) are extracted from the TEI header by lxml xpath queries, which are
external-library calls; `deriveDocId` embeds the identity computation on
the extracted fields.  `year` can only be a non-negative integer in the
source (parsed from four digit characters), but is carried as `Int` to
match the Python `int`. -/

/-- The `doc_id` computation at the end of `GrobidParser._meta_from_tei`. -/
def deriveDocId (doi arxiv_id : Option String) (authors : List String)
    (year : Option Int) (title : String) : String :=
  if pyTruthy doi then
    "doi-" ++ _slugify (pyReplace '/' '-' (doi.getD ""))
  else if pyTruthy arxiv_id then
    "arxiv-" ++ _slugify (arxiv_id.getD "")
  else
    let first_author_last :=
      _slugify (match authors with
        | [] => "doc"
        | a :: _ => ((pySplit ' ' a).getLastD ""))
    let year_part := match year with
      | some y => if y = 0 then "nd" else toString y
      | none => "nd"
    let title_words := (pySplit '-' (_slugify title)).take 6
    let joined := pyJoin '-' title_words
    first_author_last ++ year_part ++ "-" ++
      (if joined = "" then "untitled" else joined)

/-! ### Paragraph extraction (grobid.py lines 64-95)

```python
for p in para_nodes:
    text = "".join(p.itertext()).strip()
    if not text:
        continue
    xml_id = p.get("{http://www.w3.org/XML/1998/namespace}id")
    coords = p.get("coords")
    if coords:
        pages_list = sorted(
            {int(bb.split(",")[0]) for bb in coords.split(";") if bb}
        )
        page_start = pages_list[0]
        page_end = pages_list[-1]
    else:
        page_start = page_end = 1
```

The xpath walk itself is an lxml call; a node reaching the loop body is
represented by its joined text, `xml:id` attribute and `coords` attribute.
-/

/-- A parsed paragraph (`core/models.py`, `Paragraph`). -/
structure Paragraph where
  text : String
  page_start : Int
  page_end : Int
  para_id : Option String := none
  coords : Option String := none
deriving Repr, DecidableEq

/-- The page number of every non-empty coordinate box of a `coords`
attribute value: `int(bb.split(",")[0]) for bb in coords.split(";") if bb`.
`none` models the `ValueError` raised when some box's first field is not an
integer literal. -/
def boxPages (c : String) : Option (List Int) :=
  ((pySplit ';' c).filter (fun bb => bb ≠ "")).mapM
    (fun bb => pyInt? ((pySplit ',' bb).headD ""))

/-- The page-span computation for one paragraph node.  `none` models an
uncaught Python exception (a malformed page number, or the `IndexError`
from `pages_list[0]` when a truthy `coords` value contains no non-empty
box), which aborts the whole extraction. -/
def pageSpanOfCoords (coords : Option String) : Option (Int × Int) :=
  if pyTruthy coords then
    match boxPages (coords.getD "") with
    | none => none
    | some pages =>
      match (pages.dedup).insertionSort (· ≤ ·) with
      | [] => none
      | p0 :: rest => some (p0, (p0 :: rest).getLast (by simp))
  else
    some (1, 1)

/-- Outcome of the loop body of `_parse_tei_to_paragraphs` on one node. -/
inductive NodeResult where
  | skipped
  | crashed
  | kept (p : Paragraph)
deriving Repr, DecidableEq

/-- The loop body of `_parse_tei_to_paragraphs` on one paragraph node,
given the node's joined text, `xml:id` and `coords` attributes. -/
def processParaNode (text : String) (xmlId : Option String)
    (coords : Option String) : NodeResult :=
  if pyStrip text = "" then .skipped
  else
    match pageSpanOfCoords coords with
    | none => .crashed
    | some (a, b) =>
      .kept { text := pyStrip text, page_start := a, page_end := b,
              para_id := xmlId, coords := coords }

/-! ### Data model (core/models.py)

`datetime` values are modelled as opaque `Nat` timestamps; the
floating-point search distance is modelled abstractly as `Option Int`
(nothing in the embedded code inspects it — it is only passed through). -/

/-- `Document` from `core/models.py`. -/
structure Document where
  doc_id : String
  title : String
  authors : List String
  venue : Option String := none
  year : Option Int := none
  doi : Option String := none
  arxiv_id : Option String := none
  url : Option String := none
  pdf_sha256 : Option String := none
  n_pages : Int := 0
  tei_xml : Option String := none
  created_at : Nat
deriving Repr, DecidableEq

/-- `Chunk` from `core/models.py`. -/
structure Chunk where
  chunk_id : String
  doc_id : String
  text : String
  page_start : Int
  page_end : Int
  para_ids : List String := []
  section_path : List String := []
  char_start : Option Int := none
  char_end : Option Int := none
  coords : List String := []
  title : String
  authors : List String
  venue : Option String := none
  year : Option Int := none
  doi : Option String := none
  arxiv_id : Option String := none
  source_url : Option String := none
  embedding_model : String
  embedding_dims : Int
  embedding_ts : Nat
  parser : String
deriving Repr, DecidableEq

/-- `QueryHit` from `core/models.py`. -/
structure QueryHit where
  doc_id : String
  title : String
  year : Option Int
  doi : Option String
  arxiv_id : Option String
  page_span : Int × Int
  text : String
  citation : String
  distance : Option Int := none
deriving Repr, DecidableEq

/-! ### `LanceDBVectorStore._format_hit` (lancedb_store.py lines 194-221)

```python
authors = h["authors"]
short_auth = (
    (authors[0] + " et al.")
    if authors and len(authors) > 1
    else (authors[0] if authors else "Unknown")
)
title = h["title"]
year = h.get("year") or ""
pp = (
    f"p. {h['page_start']}"
    if h["page_start"] == h["page_end"]
    else f"pp. {h['page_start']}-{h['page_end']}"
)
cite = f"{short_auth} {title} ({year}), {pp}"
```
-/

/-- The raw result row selected by `LanceDBVectorStore.search` and handed
to `_format_hit`. -/
structure HitRow where
  distance : Option Int
  chunk_id : String
  doc_id : String
  text : String
  title : String
  authors : List String
  venue : Option String
  year : Option Int
  doi : Option String
  arxiv_id : Option String
  page_start : Int
  page_end : Int
  para_ids : List String
  section_path : List String
  coords : List String
deriving Repr, DecidableEq

/-- `LanceDBVectorStore._format_hit`.  `h.get("year") or ""` renders the
year through Python truthiness: `None` and `0` both print as the empty
string. -/
def _format_hit (h : HitRow) : QueryHit :=
  let short_auth :=
    match h.authors with
    | [] => "Unknown"
    | [a] => a
    | a :: _ :: _ => a ++ " et al."
  let year_str :=
    match h.year with
    | some y => if y = 0 then "" else toString y
    | none => ""
  let pp :=
    if h.page_start = h.page_end then "p. " ++ toString h.page_start
    else "pp. " ++ toString h.page_start ++ "-" ++ toString h.page_end
  let cite := short_auth ++ " " ++ h.title ++ " (" ++ year_str ++ "), " ++ pp
  { doc_id := h.doc_id, title := h.title, year := h.year, doi := h.doi,
    arxiv_id := h.arxiv_id, page_span := (h.page_start, h.page_end),
    text := h.text, citation := cite, distance := h.distance }

/-! ### `LanceDBVectorStore` state (lancedb_store.py lines 66-160)

The LanceDB engine itself is external; a table handle is modelled by the
list of rows it references (`none` = the handle attribute is still `None`),
and an embedding function by its dimension (`ndims()`).  The store
operations additionally record an event log, used only to state in which
order `ingest_pdf` performs its persistence calls. -/

/-- A persistence call observed on the store, in program order. -/
inductive Op where
  | createOrOpen
  | upsertDocuments (docIds : List String)
  | upsertChunks (chunkIds : List String)
deriving Repr, DecidableEq

/-- The mutable state of a `LanceDBVectorStore` object. -/
structure Store where
  embedding_model : String := "text-embedding-3-large"
  configured_dim : Option Int := none
  embedding_fn : Option Int := none
  docs_tbl : Option (List Document) := none
  chunks_tbl : Option (List Chunk) := none
  log : List Op := []
deriving Repr, DecidableEq

/-- The `model_name` property. -/
def Store.model_name (s : Store) : String :=
  s.embedding_model

/-- The `dim` property: raises `RuntimeError` until `create_or_open` has
initialized the embedding function. -/
def Store.dim (s : Store) : Except String Int :=
  match s.embedding_fn with
  | some d => .ok d
  | none => .error "Call create_or_open() first to initialize embedding function"

/-- `create_or_open`: create the embedding function if absent, then create
or open the two tables.  `providerDim` is the `ndims()` of the embedding
function the external registry would return; the swallowed
`create_fts_index` call has no modelled effect. -/
def Store.create_or_open (providerDim : Int) (s : Store) : Store :=
  { s with
    embedding_fn := some (s.embedding_fn.getD providerDim),
    docs_tbl := some (s.docs_tbl.getD []),
    chunks_tbl := some (s.chunks_tbl.getD []),
    log := s.log ++ [Op.createOrOpen] }

/-- `upsert_documents`: assert the handle exists, build the rows
(`DocumentRecord(**d.model_dump()).model_dump()` is the identity on the
fields) and append them unless the row list is empty. -/
def Store.upsert_documents (s : Store) (docs : List Document) :
    Except String Store :=
  match s.docs_tbl with
  | none => .error "Call create_or_open() first"
  | some tbl =>
    .ok { s with
          docs_tbl := some (if docs.isEmpty then tbl else tbl ++ docs),
          log := s.log ++ [Op.upsertDocuments (docs.map (·.doc_id))] }

/-- `upsert_chunks`: assert the handle exists and append the rows unless
the row list is empty. -/
def Store.upsert_chunks (s : Store) (chunks : List Chunk) :
    Except String Store :=
  match s.chunks_tbl with
  | none => .error "Call create_or_open() first"
  | some tbl =>
    .ok { s with
          chunks_tbl := some (if chunks.isEmpty then tbl else tbl ++ chunks),
          log := s.log ++ [Op.upsertChunks (chunks.map (·.chunk_id))] }

/-! ### `ingest_pdf` (pipeline.py lines 15-82)

The parser is an external HTTP collaborator, so its two results — the
metadata `Document` and the paragraph list — are taken as inputs (the
`meta is None` branch only chooses which collaborator call produced
`meta`).  `pdf_sha` stands for `hashlib.sha256(pdf_bytes).hexdigest()`,
`chunkIds i` for the `str(uuid.uuid4())` drawn at loop iteration `i`, and
`now` for `datetime.now(timezone.utc)`.  A `datetime` is always truthy, so
`meta.created_at or datetime.now(timezone.utc)` is `meta.created_at`. -/

/-- Python `source_url or doc.url` on optional strings. -/
def pyOrOpt (a b : Option String) : Option String :=
  if pyTruthy a then a else b

/-- Python `max((p.page_end for p in paragraphs), default=0)`. -/
def maxPageEnd (paragraphs : List Paragraph) : Int :=
  match paragraphs.map (·.page_end) with
  | [] => 0
  | x :: xs => xs.foldl max x

/-- The chunk built at loop iteration `i` of `ingest_pdf` for paragraph
`p`, after `store.dim` resolved to `d`. -/
def buildChunk (doc : Document) (source_url : Option String)
    (modelName parserName : String) (now : Nat) (d : Int)
    (chunkIds : Nat → String) (i : Nat) (p : Paragraph) : Chunk :=
  { chunk_id := chunkIds i,
    doc_id := doc.doc_id,
    text := p.text,
    page_start := p.page_start,
    page_end := p.page_end,
    para_ids := match p.para_id with
      | some pid => if pid = "" then [] else [pid]
      | none => [],
    section_path := [],
    char_start := none,
    char_end := none,
    coords := match p.coords with
      | some c => if c = "" then [] else [c]
      | none => [],
    title := doc.title,
    authors := doc.authors,
    venue := doc.venue,
    year := doc.year,
    doi := doc.doi,
    arxiv_id := doc.arxiv_id,
    source_url := pyOrOpt source_url doc.url,
    embedding_model := modelName,
    embedding_dims := d,
    embedding_ts := now,
    parser := parserName }

/-- `ingest_pdf`.  Mirrors the source order: build the `Document`, build
the chunks (reading `store.model_name` and `store.dim` per iteration),
then `create_or_open`, `upsert_documents([doc])`, `upsert_chunks(chunks)`.
-/
def ingest_pdf (meta : Document) (paragraphs : List Paragraph)
    (pdf_sha : String) (source_url : Option String)
    (chunkIds : Nat → String) (now : Nat) (providerDim : Int)
    (parserName : String) (store : Store) :
    Except String (Document × List Chunk × Store) := do
  let doc : Document :=
    { doc_id := meta.doc_id, title := meta.title, authors := meta.authors,
      venue := meta.venue, year := meta.year, doi := meta.doi,
      arxiv_id := meta.arxiv_id, url := meta.url,
      pdf_sha256 := some pdf_sha,
      n_pages := maxPageEnd paragraphs,
      tei_xml := none,
      created_at := meta.created_at }
  let chunks ← paragraphs.enum.mapM (fun ip => do
    let d ← store.dim
    pure (buildChunk doc source_url store.model_name parserName now d
      chunkIds ip.1 ip.2))
  let store1 := store.create_or_open providerDim
  let store2 ← store1.upsert_documents [doc]
  let store3 ← store2.upsert_chunks chunks
  pure (doc, chunks, store3)

/-! ### Claim-side comparison definitions

These definitions follow the wording of the claims (not the source); the
corresponding theorems compare them with the source embeddings above. -/

/-- Claim C3's author token rule, written from the claim's words: the
first author plus " et al." when there is more than one author, the sole
author's name when there is exactly one, "Unknown" when there are none. -/
def claimAuthorToken (authors : List String) : String :=
  if 1 < authors.length then authors.headD "" ++ " et al."
  else if authors.length = 1 then authors.headD ""
  else "Unknown"

/-- Claim C3's year rendering: the year, or empty (Python `year or ""`,
under which a missing year prints as the empty string). -/
def claimYearToken : Option Int → String
  | some y => if y = 0 then "" else toString y
  | none => ""

/-- Claim C3's page token rule, written from the claim's words. -/
def claimPageToken (page_start page_end : Int) : String :=
  if page_start = page_end then "p. " ++ toString page_start
  else "pp. " ++ toString page_start ++ "-" ++ toString page_end

/-- Amended claim C1's doc_id rule, written from the amended claim's
words: if a DOI is present (non-empty) the id is "doi-" plus the slug of
the DOI with every "/" replaced by "-"; else if an arXiv id is present,
"arxiv-" plus its slug; else the slug of the first author's surname
("doc" when there are no authors), then the year (or "nd" when the year
is absent or zero), a "-" separator, and the joined first six slugified
title words ("untitled" when that token is empty). -/
def amendedDocIdRule (doi arxiv_id : Option String) (authors : List String)
    (year : Option Int) (title : String) : String :=
  if pyTruthy doi then
    "doi-" ++ _slugify (pyReplace '/' '-' (doi.getD ""))
  else if pyTruthy arxiv_id then
    "arxiv-" ++ _slugify (arxiv_id.getD "")
  else
    let authorTok := match authors with
      | [] => "doc"
      | a :: _ => _slugify ((pySplit ' ' a).getLastD "")
    let yearTok := match year with
      | some y => if y = 0 then "nd" else toString y
      | none => "nd"
    let titleTok :=
      let ws := pyJoin '-' ((pySplit '-' (_slugify title)).take 6)
      if ws = "" then "untitled" else ws
    authorTok ++ yearTok ++ "-" ++ titleTok

/-! ### Concrete inputs used by the witness theorems -/

/-- A small concrete metadata record. -/
def meta0 : Document :=
  { doc_id := "d1", title := "T", authors := ["A B"], created_at := 0 }

/-- A concrete paragraph spanning pages 2-3. -/
def para0 : Paragraph :=
  { text := "hello", page_start := 2, page_end := 3 }

/-- A store whose `create_or_open` has in effect already run: embedding
function initialized with dimension 4, both table handles present. -/
def store0 : Store :=
  { embedding_model := "m", embedding_fn := some 4,
    docs_tbl := some [], chunks_tbl := some [] }

/-- A store object on which `create_or_open` has never been called. -/
def storeFresh : Store :=
  { embedding_model := "m" }

/-- A deterministic stand-in for the uuid stream: the chunk built at loop
iteration `n` receives a string of `n` repetitions of 'a'. -/
def ids0 : Nat → String := fun n => String.mk (List.replicate n 'a')

/-- The `Document` `ingest_pdf meta0 [para0] ...` builds. -/
def doc0 : Document :=
  { doc_id := "d1", title := "T", authors := ["A B"],
    pdf_sha256 := some "sha", n_pages := 3, created_at := 0 }

/-- The single chunk `ingest_pdf meta0 [para0] ...` builds on `store0`. -/
def chunk0 : Chunk :=
  { chunk_id := "", doc_id := "d1", text := "hello",
    page_start := 2, page_end := 3, title := "T", authors := ["A B"],
    embedding_model := "m", embedding_dims := 4, embedding_ts := 7,
    parser := "GrobidParser" }

/-- The store state after `ingest_pdf meta0 [para0] "sha" ... store0`. -/
def store0' : Store :=
  { embedding_model := "m", embedding_fn := some 4,
    docs_tbl := some [doc0], chunks_tbl := some [chunk0],
    log := [Op.createOrOpen, Op.upsertDocuments ["d1"],
            Op.upsertChunks [""]] }

/-- The concrete result row of claim C3's example. -/
def adaRow : HitRow :=
  { distance := none, chunk_id := "c", doc_id := "d", text := "t",
    title := "Analytical Engines",
    authors := ["Ada Lovelace", "Charles Babbage"],
    venue := none, year := some 1843, doi := none, arxiv_id := none,
    page_start := 12, page_end := 12, para_ids := [], section_path := [],
    coords := [] }

/-- The store returned by `store0.upsert_documents []`. -/
def store0u : Store :=
  { store0 with log := [Op.upsertDocuments []] }

/-- The paragraph retained from a node with boxes on pages {3, 5, 4}. -/
def spanPara0 : Paragraph :=
  { text := "x", page_start := 3, page_end := 5, para_id := none,
    coords := some "3,1;5,2;4,3" }

/-! ## Theorems -/

/-- Claim C1, counterexample to the claim as stated.  First conjunct: for
a DOI containing "/", the derived id is not `"doi-" + slugify(doi)` (the
code first replaces "/" by "-", which the slug keeps, while `slugify`
alone deletes the "/").  Second conjunct: a metadata record with a present
year 0 does not receive the year in its fallback id (the code renders a
zero year as "nd"). -/
theorem claim_C1_counterexample :
    deriveDocId (some "10.1000/182") none [] none "Some Title" ≠
      "doi-" ++ _slugify "10.1000/182" ∧
    deriveDocId none none ["Ada Lovelace"] (some 0) "Analytical Engines" ≠
      "lovelace0-analytical-engines" := by
  constructor <;> decide

/-- Claim C1 (amended): doc_id derivation follows the priority rule with
the DOI slugified after replacing "/" by "-", and with a year of 0 treated
like an absent year ("nd"); otherwise as the claim states it, including
"doc" for a missing author token and "untitled" for an empty title token.
-/
theorem claim_C1_theorem :
    ∀ (doi arxiv_id : Option String) (authors : List String)
      (year : Option Int) (title : String),
      deriveDocId doi arxiv_id authors year title =
        amendedDocIdRule doi arxiv_id authors year title := by
  intro doi arxiv_id authors year title
  cases authors with
  | nil => rfl
  | cons a t => rfl

/-- Claim C3: the citation of every formatted hit is the pure function of
the row's fields given by the claim's author/year/page token rules, and
the concrete example row (Ada Lovelace & Charles Babbage, "Analytical
Engines", 1843, page 12) formats to
"Ada Lovelace et al. Analytical Engines (1843), p. 12". -/
theorem claim_C3_theorem :
    (∀ h : HitRow, (_format_hit h).citation =
        claimAuthorToken h.authors ++ " " ++ h.title ++ " (" ++
          claimYearToken h.year ++ "), " ++
          claimPageToken h.page_start h.page_end) ∧
    (_format_hit adaRow).citation =
      "Ada Lovelace et al. Analytical Engines (1843), p. 12" := by
  constructor
  · intro h
    cases hau : h.authors with
    | nil =>
      simp [_format_hit, claimAuthorToken, claimYearToken, claimPageToken, hau]
    | cons a t =>
      cases t with
      | nil =>
        simp [_format_hit, claimAuthorToken, claimYearToken, claimPageToken, hau]
      | cons b t' =>
        simp [_format_hit, claimAuthorToken, claimYearToken, claimPageToken, hau]
  · decide

/-- Claim C7: identity derivation is deterministic and, when a DOI is
present (non-empty), independent of every other field; in particular two
records with the same DOI get the same doc_id, and changing only the
title of a record with a DOI does not change its doc_id. -/
theorem claim_C7_theorem :
    (∀ (d : String), d ≠ "" →
      ∀ (x₁ x₂ : Option String) (a₁ a₂ : List String) (y₁ y₂ : Option Int)
        (t₁ t₂ : String),
        deriveDocId (some d) x₁ a₁ y₁ t₁ = deriveDocId (some d) x₂ a₂ y₂ t₂) ∧
    (∀ (d : String), d ≠ "" →
      ∀ (x : Option String) (a : List String) (y : Option Int) (t t' : String),
        deriveDocId (some d) x a y t = deriveDocId (some d) x a y t') := by
  have key : ∀ (d : String), d ≠ "" →
      ∀ (x : Option String) (a : List String) (y : Option Int) (t : String),
        deriveDocId (some d) x a y t =
          "doi-" ++ _slugify (pyReplace '/' '-' d) := by
    intro d hd x a y t
    simp [deriveDocId, pyTruthy, hd]
  refine ⟨fun d hd x₁ x₂ a₁ a₂ y₁ y₂ t₁ t₂ => ?_, fun d hd x a y t t' => ?_⟩
  · rw [key d hd x₁ a₁ y₁ t₁, key d hd x₂ a₂ y₂ t₂]
  · rw [key d hd x a y t, key d hd x a y t']

/-- Witness for claim C7 at a concrete DOI and two otherwise unrelated
records. -/
theorem claim_C7_witness :
    ("10.1000/182" : String) ≠ "" ∧
    deriveDocId (some "10.1000/182") none [] none "Title One" =
      deriveDocId (some "10.1000/182") (some "1234.5") ["X Y"] (some 2020)
        "Title Two" :=
  ⟨by decide,
   claim_C7_theorem.1 "10.1000/182" (by decide) none (some "1234.5") []
     ["X Y"] none (some 2020) "Title One" "Title Two"⟩

/-- Claim C9: on every store state, upserting an empty sequence of
documents or chunks never changes either persisted table, and on a store
whose handles exist it succeeds outright. -/
theorem claim_C9_theorem : ∀ s : Store,
    (∀ s', s.upsert_documents [] = .ok s' →
       s'.docs_tbl = s.docs_tbl ∧ s'.chunks_tbl = s.chunks_tbl) ∧
    (∀ s', s.upsert_chunks [] = .ok s' →
       s'.docs_tbl = s.docs_tbl ∧ s'.chunks_tbl = s.chunks_tbl) ∧
    (s.docs_tbl ≠ none → ∃ s', s.upsert_documents [] = .ok s') ∧
    (s.chunks_tbl ≠ none → ∃ s', s.upsert_chunks [] = .ok s') := by
  intro s
  refine ⟨?_, ?_, ?_, ?_⟩
  · intro s' h
    cases hd : s.docs_tbl with
    | none => simp [Store.upsert_documents, hd] at h
    | some tbl =>
      simp [Store.upsert_documents, hd] at h
      subst h
      simp [hd]
  · intro s' h
    cases hd : s.chunks_tbl with
    | none => simp [Store.upsert_chunks, hd] at h
    | some tbl =>
      simp [Store.upsert_chunks, hd] at h
      subst h
      simp [hd]
  · intro hd
    cases he : s.docs_tbl with
    | none => exact absurd he hd
    | some tbl =>
      refine ⟨{ s with docs_tbl := some tbl,
                       log := s.log ++ [Op.upsertDocuments []] }, ?_⟩
      simp [Store.upsert_documents, he]
  · intro hd
    cases he : s.chunks_tbl with
    | none => exact absurd he hd
    | some tbl =>
      refine ⟨{ s with chunks_tbl := some tbl,
                       log := s.log ++ [Op.upsertChunks []] }, ?_⟩
      simp [Store.upsert_chunks, he]

/-- Witness for claim C9 on the concrete opened store `store0`. -/
theorem claim_C9_witness :
    store0.upsert_documents [] = .ok store0u ∧
    store0u.docs_tbl = store0.docs_tbl ∧
    store0u.chunks_tbl = store0.chunks_tbl := by
  have h : store0.upsert_documents [] = .ok store0u := rfl
  exact ⟨h, (claim_C9_theorem store0).1 store0u h⟩

/-! ### Supporting lemmas for the `ingest_pdf` claims -/

theorem exceptBindOk {ε α β : Type} (a : α) (f : α → Except ε β) :
    (Except.ok a : Except ε α) >>= f = f a := rfl

theorem exceptBindError {ε α β : Type} (e : ε) (f : α → Except ε β) :
    (Except.error e : Except ε α) >>= f = .error e := rfl

theorem exceptPureEq {ε α : Type} (a : α) :
    (pure a : Except ε α) = .ok a := rfl

theorem mapM_buildChunk_ok (doc : Document) (src : Option String)
    (mn pn : String) (now : Nat) (d : Int) (ids : Nat → String) (s : Store)
    (h : s.dim = .ok d) :
    ∀ l : List (Nat × Paragraph),
      (l.mapM (fun ip => do
          let d' ← s.dim
          pure (buildChunk doc src mn pn now d' ids ip.1 ip.2))) =
        .ok (l.map (fun ip => buildChunk doc src mn pn now d ids ip.1 ip.2)) := by
  intro l
  induction l with
  | nil => rfl
  | cons x xs ih =>
    rw [List.mapM_cons, ih, h]
    rfl

theorem mapM_buildChunk_error (doc : Document) (src : Option String)
    (mn pn : String) (now : Nat) (ids : Nat → String) (s : Store)
    (e : String) (h : s.dim = .error e) (x : Nat × Paragraph)
    (l : List (Nat × Paragraph)) :
    ((x :: l).mapM (fun ip => do
        let d' ← s.dim
        pure (buildChunk doc src mn pn now d' ids ip.1 ip.2))) = .error e := by
  rw [List.mapM_cons, h]
  rfl

theorem start_le_foldl_max :
    ∀ (xs : List Int) (x : Int), x ≤ xs.foldl max x := by
  intro xs
  induction xs with
  | nil => intro x; simp
  | cons h t ih =>
    intro x
    calc x ≤ max x h := le_max_left _ _
    _ ≤ t.foldl max (max x h) := ih _

theorem mem_le_foldl_max :
    ∀ (xs : List Int) (x y : Int), y ∈ xs → y ≤ xs.foldl max x := by
  intro xs
  induction xs with
  | nil => intro x y hy; simp at hy
  | cons h t ih =>
    intro x y hy
    rcases List.mem_cons.mp hy with h1 | h2
    · subst h1
      calc y ≤ max x y := le_max_right _ _
      _ ≤ t.foldl max (max x y) := start_le_foldl_max _ _
    · exact ih (max x h) y h2

theorem foldl_max_mem :
    ∀ (xs : List Int) (x : Int), xs.foldl max x ∈ x :: xs := by
  intro xs
  induction xs with
  | nil => intro x; simp
  | cons h t ih =>
    intro x
    have hm := ih (max x h)
    rcases List.mem_cons.mp hm with h1 | h2
    · rcases max_choice x h with hx | hh
      · rw [List.foldl_cons, h1, hx]; exact List.mem_cons_self _ _
      · rw [List.foldl_cons, h1, hh]
        exact List.mem_cons_of_mem _ (List.mem_cons_self _ _)
    · rw [List.foldl_cons]
      exact List.mem_cons_of_mem _ (List.mem_cons_of_mem _ h2)

theorem le_maxPageEnd (paragraphs : List Paragraph) :
    ∀ p ∈ paragraphs, p.page_end ≤ maxPageEnd paragraphs := by
  intro p hp
  unfold maxPageEnd
  cases hm : paragraphs.map (·.page_end) with
  | nil =>
    exact absurd (List.mem_map_of_mem (·.page_end) hp) (by simp [hm])
  | cons x xs =>
    have : p.page_end ∈ x :: xs := hm ▸ List.mem_map_of_mem (·.page_end) hp
    rcases List.mem_cons.mp this with h1 | h2
    · exact h1 ▸ start_le_foldl_max _ _
    · exact mem_le_foldl_max _ _ _ h2

theorem maxPageEnd_mem (paragraphs : List Paragraph) (h : paragraphs ≠ []) :
    maxPageEnd paragraphs ∈ paragraphs.map (·.page_end) := by
  unfold maxPageEnd
  cases hm : paragraphs.map (·.page_end) with
  | nil => exact absurd (List.map_eq_nil_iff.mp hm) h
  | cons x xs => exact foldl_max_mem xs x

theorem fst_ge_of_mem_enumFrom {α : Type} :
    ∀ (l : List α) (n : Nat) (b : Nat × α), b ∈ l.enumFrom n → n ≤ b.1 := by
  intro l
  induction l with
  | nil => intro n b hb; simp [List.enumFrom] at hb
  | cons x xs ih =>
    intro n b hb
    rcases List.mem_cons.mp hb with h1 | h2
    · subst h1; exact le_refl n
    · exact Nat.le_of_succ_le (ih (n + 1) b h2)

theorem pairwise_fst_lt_enumFrom {α : Type} :
    ∀ (l : List α) (n : Nat),
      List.Pairwise (fun a b : Nat × α => a.1 < b.1) (l.enumFrom n) := by
  intro l
  induction l with
  | nil => intro n; simp [List.enumFrom]
  | cons x xs ih =>
    intro n
    refine List.Pairwise.cons ?_ (ih (n + 1))
    intro b hb
    exact Nat.lt_of_succ_le (fst_ge_of_mem_enumFrom xs (n + 1) b hb)

theorem ids0_injective : Function.Injective ids0 := by
  intro a b h
  have := congrArg (fun s => s.data.length) h
  simpa [ids0] using this

/-- Characterization of a successful `ingest_pdf` call: the returned
document, the appended log events, and the chunk list (a map over the
enumerated paragraphs unless both are empty because the dimension lookup
never ran). -/
theorem ingest_pdf_ok_spec :
    ∀ (meta : Document) (paragraphs : List Paragraph) (pdf_sha : String)
      (src : Option String) (ids : Nat → String) (now : Nat) (pd : Int)
      (pn : String) (store : Store) (doc : Document) (chunks : List Chunk)
      (store' : Store),
      ingest_pdf meta paragraphs pdf_sha src ids now pd pn store =
        .ok (doc, chunks, store') →
      doc = { doc_id := meta.doc_id, title := meta.title,
              authors := meta.authors, venue := meta.venue,
              year := meta.year, doi := meta.doi, arxiv_id := meta.arxiv_id,
              url := meta.url, pdf_sha256 := some pdf_sha,
              n_pages := maxPageEnd paragraphs, tei_xml := none,
              created_at := meta.created_at } ∧
      store'.log = store.log ++
        [Op.createOrOpen, Op.upsertDocuments [doc.doc_id],
         Op.upsertChunks (chunks.map (·.chunk_id))] ∧
      ((∃ d, store.dim = .ok d ∧
          chunks = paragraphs.enum.map
            (fun ip => buildChunk doc src store.model_name pn now d ids
              ip.1 ip.2)) ∨
        (paragraphs = [] ∧ chunks = [])) := by
  intro meta paragraphs pdf_sha src ids now pd pn store doc chunks store' hok
  cases hdim : store.dim with
  | ok d =>
    rw [ingest_pdf] at hok
    rw [mapM_buildChunk_ok _ src store.model_name pn now d ids store hdim,
      exceptBindOk] at hok
    simp only [Store.create_or_open, Store.upsert_documents,
      Store.upsert_chunks, exceptBindOk, exceptPureEq, List.isEmpty_cons,
      Except.ok.injEq, Prod.mk.injEq] at hok
    obtain ⟨h1, h2, h3⟩ := hok
    subst h1
    subst h2
    subst h3
    refine ⟨rfl, by simp, Or.inl ⟨d, rfl, rfl⟩⟩
  | error e =>
    cases paragraphs with
    | nil =>
      rw [ingest_pdf] at hok
      simp only [List.enum_nil, List.mapM_nil, exceptPureEq, exceptBindOk,
        Store.create_or_open, Store.upsert_documents, Store.upsert_chunks,
        List.isEmpty_cons, List.isEmpty_nil, Except.ok.injEq,
        Prod.mk.injEq] at hok
      obtain ⟨h1, h2, h3⟩ := hok
      subst h1
      subst h2
      subst h3
      refine ⟨rfl, by simp, Or.inr ⟨rfl, rfl⟩⟩
    | cons p ps =>
      rw [ingest_pdf, List.enum_cons] at hok
      rw [mapM_buildChunk_error _ src store.model_name pn now ids store e
        hdim, exceptBindError] at hok
      exact absurd hok (by simp)

/-- Claim C4: a successful ingest builds exactly one chunk per input
paragraph, each carrying the uuid drawn at its loop iteration, its
paragraph's text and page span, and denormalized title/authors/venue/
year/doi/arxiv_id fields exactly equal to the returned Document's; chunk
ids are pairwise distinct whenever the uuid stream is injective. -/
theorem claim_C4_theorem :
    ∀ (meta : Document) (paragraphs : List Paragraph) (pdf_sha : String)
      (src : Option String) (ids : Nat → String) (now : Nat) (pd : Int)
      (pn : String) (store : Store) (doc : Document) (chunks : List Chunk)
      (store' : Store),
      ingest_pdf meta paragraphs pdf_sha src ids now pd pn store =
        .ok (doc, chunks, store') →
      chunks.length = paragraphs.length ∧
      (∀ i, ∀ hi : i < paragraphs.length, ∀ hc : i < chunks.length,
        chunks[i].chunk_id = ids i ∧
        chunks[i].text = paragraphs[i].text ∧
        chunks[i].page_start = paragraphs[i].page_start ∧
        chunks[i].page_end = paragraphs[i].page_end ∧
        chunks[i].title = doc.title ∧
        chunks[i].authors = doc.authors ∧
        chunks[i].venue = doc.venue ∧
        chunks[i].year = doc.year ∧
        chunks[i].doi = doc.doi ∧
        chunks[i].arxiv_id = doc.arxiv_id ∧
        chunks[i].doc_id = doc.doc_id) ∧
      (Function.Injective ids →
        chunks.Pairwise (fun c1 c2 => c1.chunk_id ≠ c2.chunk_id)) := by
  intro meta paragraphs pdf_sha src ids now pd pn store doc chunks store' hok
  obtain ⟨hdoc, hlog, hch⟩ :=
    ingest_pdf_ok_spec meta paragraphs pdf_sha src ids now pd pn store doc
      chunks store' hok
  rcases hch with ⟨d, hdim, hchunks⟩ | ⟨hp, hc⟩
  · subst hchunks
    refine ⟨by simp, ?_, ?_⟩
    · intro i hi hc
      simp [List.getElem_map, List.getElem_enum, buildChunk]
    · intro hinj
      rw [List.pairwise_map]
      have hlt : List.Pairwise (fun a b : Nat × Paragraph => a.1 < b.1)
          paragraphs.enum := pairwise_fst_lt_enumFrom paragraphs 0
      refine hlt.imp ?_
      intro a b hab heq
      exact absurd (hinj heq) (Nat.ne_of_lt hab)
  · subst hp
    subst hc
    refine ⟨rfl, ?_, fun _ => List.Pairwise.nil⟩
    intro i hi hc
    exact absurd hi (by simp)

/-- Witness for claim C4 on a one-paragraph ingest into the opened store
`store0`. -/
theorem claim_C4_witness :
    ingest_pdf meta0 [para0] "sha" none ids0 7 4 "GrobidParser" store0 =
      .ok (doc0, [chunk0], store0') ∧
    [chunk0].length = [para0].length ∧
    chunk0.chunk_id = ids0 0 ∧
    chunk0.text = para0.text ∧
    chunk0.title = doc0.title ∧
    chunk0.authors = doc0.authors ∧
    List.Pairwise (fun c1 c2 : Chunk => c1.chunk_id ≠ c2.chunk_id)
      [chunk0] := by
  have h : ingest_pdf meta0 [para0] "sha" none ids0 7 4 "GrobidParser"
      store0 = .ok (doc0, [chunk0], store0') := rfl
  have main := claim_C4_theorem meta0 [para0] "sha" none ids0 7 4
    "GrobidParser" store0 doc0 [chunk0] store0' h
  have hidx := main.2.1 0 (by decide) (by decide)
  exact ⟨h, main.1, hidx.1, hidx.2.1, hidx.2.2.2.2.1, hidx.2.2.2.2.2.1,
    main.2.2 ids0_injective⟩

/-- Claim C5: a successful ingest returns a Document whose `n_pages` is
the maximum `page_end` over the produced paragraphs (an upper bound that
is attained when any paragraph exists) and 0 when there are none; and an
ingest of zero paragraphs always succeeds, with `n_pages = 0` and zero
chunks. -/
theorem claim_C5_theorem :
    (∀ (meta : Document) (paragraphs : List Paragraph) (pdf_sha : String)
      (src : Option String) (ids : Nat → String) (now : Nat) (pd : Int)
      (pn : String) (store : Store) (doc : Document) (chunks : List Chunk)
      (store' : Store),
      ingest_pdf meta paragraphs pdf_sha src ids now pd pn store =
        .ok (doc, chunks, store') →
      (paragraphs = [] → doc.n_pages = 0 ∧ chunks = []) ∧
      (∀ p ∈ paragraphs, p.page_end ≤ doc.n_pages) ∧
      (paragraphs ≠ [] →
        doc.n_pages ∈ paragraphs.map (fun p => p.page_end))) ∧
    (∀ (meta : Document) (pdf_sha : String) (src : Option String)
      (ids : Nat → String) (now : Nat) (pd : Int) (pn : String)
      (store : Store),
      ∃ doc store',
        ingest_pdf meta [] pdf_sha src ids now pd pn store =
          .ok (doc, [], store') ∧ doc.n_pages = 0) := by
  constructor
  · intro meta paragraphs pdf_sha src ids now pd pn store doc chunks store'
      hok
    obtain ⟨hdoc, hlog, hch⟩ :=
      ingest_pdf_ok_spec meta paragraphs pdf_sha src ids now pd pn store doc
        chunks store' hok
    subst hdoc
    refine ⟨?_, ?_, ?_⟩
    · intro hp
      subst hp
      refine ⟨rfl, ?_⟩
      rcases hch with ⟨d, hdim, hchunks⟩ | ⟨hp', hc⟩
      · simp [hchunks]
      · exact hc
    · intro p hp
      exact le_maxPageEnd paragraphs p hp
    · intro hne
      exact maxPageEnd_mem paragraphs hne
  · intro meta pdf_sha src ids now pd pn store
    exact ⟨_, _, rfl, rfl⟩

/-- Witness for claim C5 on a one-paragraph ingest: the page bound holds
and is attained. -/
theorem claim_C5_witness :
    ingest_pdf meta0 [para0] "sha" none ids0 7 4 "GrobidParser" store0 =
      .ok (doc0, [chunk0], store0') ∧
    para0.page_end ≤ doc0.n_pages ∧
    doc0.n_pages ∈ [para0].map (fun p => p.page_end) := by
  have h : ingest_pdf meta0 [para0] "sha" none ids0 7 4 "GrobidParser"
      store0 = .ok (doc0, [chunk0], store0') := rfl
  have main := claim_C5_theorem.1 meta0 [para0] "sha" none ids0 7 4
    "GrobidParser" store0 doc0 [chunk0] store0' h
  exact ⟨h, main.2.1 para0 (by simp), main.2.2 (by simp)⟩

/-- Claim C8: every successful ingest appends exactly the events
open-store, upsert the document row, upsert the chunk rows — in that
order — to the store's persistence log, so the document is always written
before its chunks. -/
theorem claim_C8_theorem :
    ∀ (meta : Document) (paragraphs : List Paragraph) (pdf_sha : String)
      (src : Option String) (ids : Nat → String) (now : Nat) (pd : Int)
      (pn : String) (store : Store) (doc : Document) (chunks : List Chunk)
      (store' : Store),
      ingest_pdf meta paragraphs pdf_sha src ids now pd pn store =
        .ok (doc, chunks, store') →
      store'.log = store.log ++
        [Op.createOrOpen, Op.upsertDocuments [doc.doc_id],
         Op.upsertChunks (chunks.map (fun c => c.chunk_id))] := by
  intro meta paragraphs pdf_sha src ids now pd pn store doc chunks store' hok
  exact (ingest_pdf_ok_spec meta paragraphs pdf_sha src ids now pd pn store
    doc chunks store' hok).2.1

/-- Witness for claim C8 on a one-paragraph ingest into `store0`. -/
theorem claim_C8_witness :
    ingest_pdf meta0 [para0] "sha" none ids0 7 4 "GrobidParser" store0 =
      .ok (doc0, [chunk0], store0') ∧
    store0'.log = store0.log ++
      [Op.createOrOpen, Op.upsertDocuments [doc0.doc_id],
       Op.upsertChunks ([chunk0].map (fun c => c.chunk_id))] := by
  have h : ingest_pdf meta0 [para0] "sha" none ids0 7 4 "GrobidParser"
      store0 = .ok (doc0, [chunk0], store0') := rfl
  exact ⟨h, claim_C8_theorem meta0 [para0] "sha" none ids0 7 4
    "GrobidParser" store0 doc0 [chunk0] store0' h⟩

/-- Claim C10: on a store that has never been opened (no embedding
function), an ingest whose input parses to at least one paragraph fails
with the `dim` property's RuntimeError — raised while building chunks,
before the store is opened and before any row is written — while the same
call with zero paragraphs succeeds. -/
theorem claim_C10_theorem :
    ∀ (meta : Document) (paragraphs : List Paragraph) (pdf_sha : String)
      (src : Option String) (ids : Nat → String) (now : Nat) (pd : Int)
      (pn : String) (store : Store),
      store.embedding_fn = none →
      (paragraphs ≠ [] →
        ingest_pdf meta paragraphs pdf_sha src ids now pd pn store =
          .error
            "Call create_or_open() first to initialize embedding function") ∧
      (paragraphs = [] →
        ∃ doc store',
          ingest_pdf meta paragraphs pdf_sha src ids now pd pn store =
            .ok (doc, [], store')) := by
  intro meta paragraphs pdf_sha src ids now pd pn store hfn
  have hdim : store.dim =
      .error "Call create_or_open() first to initialize embedding function" := by
    simp [Store.dim, hfn]
  constructor
  · intro hne
    cases paragraphs with
    | nil => exact absurd rfl hne
    | cons p ps =>
      rw [ingest_pdf, List.enum_cons]
      rw [mapM_buildChunk_error _ src store.model_name pn now ids store _
        hdim, exceptBindError]
  · intro hp
    subst hp
    exact ⟨_, _, rfl⟩

/-- Witness for claim C10 on the never-opened store `storeFresh`. -/
theorem claim_C10_witness :
    storeFresh.embedding_fn = none ∧
    ([para0] : List Paragraph) ≠ [] ∧
    ingest_pdf meta0 [para0] "sha" none ids0 7 4 "GrobidParser" storeFresh =
      .error "Call create_or_open() first to initialize embedding function" :=
  ⟨rfl, by decide,
   (claim_C10_theorem meta0 [para0] "sha" none ids0 7 4 "GrobidParser"
     storeFresh rfl).1 (by decide)⟩

/-! ### Supporting lemmas for the page-span claim -/

theorem head_sorted_le (l : List Int) (hs : l.Sorted (· ≤ ·)) :
    ∀ (hne : l ≠ []) (x : Int), x ∈ l → l.head hne ≤ x := by
  cases l with
  | nil => intro hne; exact absurd rfl hne
  | cons a t =>
    intro hne x hx
    rcases List.mem_cons.mp hx with h1 | h2
    · subst h1; exact le_refl _
    · exact List.rel_of_sorted_cons hs x h2

theorem sorted_le_getLast :
    ∀ (l : List Int), l.Sorted (· ≤ ·) →
      ∀ (hne : l ≠ []) (x : Int), x ∈ l → x ≤ l.getLast hne := by
  intro l
  induction l with
  | nil => intro _ hne; exact absurd rfl hne
  | cons a t ih =>
    intro hs hne x hx
    cases t with
    | nil =>
      have hx' : x = a := by simpa using hx
      subst hx'
      simp
    | cons b t' =>
      have hLcons : (a :: b :: t').getLast hne =
          (b :: t').getLast (by simp) := by
        rw [List.getLast_cons]
      rcases List.mem_cons.mp hx with h1 | h2
      · subst h1
        rw [hLcons]
        exact List.rel_of_sorted_cons hs _ (List.getLast_mem _)
      · rw [hLcons]
        exact ih hs.of_cons (by simp) x h2

/-- Full behaviour of the page-span computation on a successful branch. -/
theorem pageSpanOfCoords_spec :
    ∀ (coords : Option String) (a b : Int),
      pageSpanOfCoords coords = some (a, b) →
      a ≤ b ∧
      (pyTruthy coords = false → a = 1 ∧ b = 1) ∧
      (∀ c pages, coords = some c → boxPages c = some pages → pages ≠ [] →
        a ∈ pages ∧ b ∈ pages ∧ ∀ x ∈ pages, a ≤ x ∧ x ≤ b) := by
  intro coords a b h
  unfold pageSpanOfCoords at h
  by_cases hpt : pyTruthy coords = true
  · rw [if_pos hpt] at h
    split at h
    · exact absurd h (by simp)
    · rename_i pages hbp
      split at h
      · exact absurd h (by simp)
      · rename_i p0 rest hsort
        simp only [Option.some.injEq, Prod.mk.injEq] at h
        obtain ⟨ha, hb⟩ := h
        have hsorted : (p0 :: rest).Sorted (· ≤ ·) := by
          rw [← hsort]; exact List.sorted_insertionSort _ _
        have hperm : (p0 :: rest).Perm pages.dedup := by
          rw [← hsort]; exact List.perm_insertionSort _ _
        have hmem : ∀ x : Int, x ∈ (p0 :: rest) ↔ x ∈ pages := by
          intro x
          rw [hperm.mem_iff, List.mem_dedup]
        have hheadmem : a ∈ pages := by
          rw [← hmem, ← ha]; exact List.mem_cons_self _ _
        have hlastmem : b ∈ pages := by
          rw [← hmem, ← hb]; exact List.getLast_mem _
        have hbound : ∀ x ∈ pages, a ≤ x ∧ x ≤ b := by
          intro x hx
          have hx' : x ∈ (p0 :: rest) := (hmem x).mpr hx
          constructor
          · rw [← ha]
            exact head_sorted_le _ hsorted (by simp) x hx'
          · rw [← hb]
            exact sorted_le_getLast _ hsorted (by simp) x hx'
        refine ⟨?_, ?_, fun c ps hc hbp2 hne => ?_⟩
        · exact (hbound a hheadmem).2
        · intro hcontra; rw [hcontra] at hpt; exact absurd hpt (by simp)
        · subst hc
          simp only [Option.getD_some] at hbp
          rw [hbp] at hbp2
          injection hbp2 with hps
          subst hps
          exact ⟨hheadmem, hlastmem, hbound⟩
  · have hptf : pyTruthy coords = false := by simpa using hpt
    rw [if_neg hpt] at h
    simp only [Option.some.injEq, Prod.mk.injEq] at h
    obtain ⟨ha, hb⟩ := h
    subst ha
    subst hb
    refine ⟨le_refl _, fun _ => ⟨rfl, rfl⟩, ?_⟩
    intro c pages hc hbp hne
    subst hc
    have hc0 : c = "" := by
      simp [pyTruthy] at hptf
      exact hptf
    subst hc0
    have hbe : boxPages "" = some [] := rfl
    rw [hbe] at hbp
    injection hbp with hbp'
    exact absurd hbp'.symm hne

/-- A retained paragraph's span is exactly `pageSpanOfCoords` of its
coords attribute. -/
theorem processParaNode_kept :
    ∀ (t : String) (xid coords : Option String) (p : Paragraph),
      processParaNode t xid coords = NodeResult.kept p →
      pageSpanOfCoords coords = some (p.page_start, p.page_end) := by
  intro t xid coords p h
  unfold processParaNode at h
  by_cases he : pyStrip t = ""
  · rw [if_pos he] at h
    exact absurd h (by simp)
  · rw [if_neg he] at h
    cases hps : pageSpanOfCoords coords with
    | none => rw [hps] at h; exact absurd h (by simp)
    | some ab =>
      obtain ⟨a, b⟩ := ab
      rw [hps] at h
      simp only [NodeResult.kept.injEq] at h
      rw [← h]

/-- Claim C2: every paragraph retained by the structure extractor has
`page_start <= page_end`; when its node has coordinate boxes the span is
the min/max page across all boxes, and with no coordinate boxes (a missing
or empty `coords` attribute) both bounds are 1; a node with boxes on pages
{3, 5, 4} resolves to span (3, 5). -/
theorem claim_C2_theorem :
    (∀ (t : String) (xid coords : Option String) (p : Paragraph),
      processParaNode t xid coords = NodeResult.kept p →
      p.page_start ≤ p.page_end) ∧
    (∀ (t : String) (xid : Option String) (p : Paragraph),
      (processParaNode t xid none = NodeResult.kept p →
        p.page_start = 1 ∧ p.page_end = 1) ∧
      (processParaNode t xid (some "") = NodeResult.kept p →
        p.page_start = 1 ∧ p.page_end = 1)) ∧
    (∀ (t : String) (xid : Option String) (c : String) (p : Paragraph)
      (pages : List Int),
      processParaNode t xid (some c) = NodeResult.kept p →
      boxPages c = some pages → pages ≠ [] →
      p.page_start ∈ pages ∧ p.page_end ∈ pages ∧
        ∀ x ∈ pages, p.page_start ≤ x ∧ x ≤ p.page_end) ∧
    processParaNode "x" none (some "3,1;5,2;4,3") =
      NodeResult.kept spanPara0 := by
  refine ⟨?_, ?_, ?_, by decide⟩
  · intro t xid coords p h
    exact (pageSpanOfCoords_spec coords _ _
      (processParaNode_kept t xid coords p h)).1
  · intro t xid p
    constructor
    · intro h
      exact (pageSpanOfCoords_spec none _ _
        (processParaNode_kept t xid none p h)).2.1 rfl
    · intro h
      exact (pageSpanOfCoords_spec (some "") _ _
        (processParaNode_kept t xid (some "") p h)).2.1 (by decide)
  · intro t xid c p pages h hbp hne
    exact (pageSpanOfCoords_spec (some c) _ _
      (processParaNode_kept t xid (some c) p h)).2.2 c pages rfl hbp hne

/-- Witness for claim C2 on a concrete node with boxes on pages 3, 5, 4.
-/
theorem claim_C2_witness :
    processParaNode "x" none (some "3,1;5,2;4,3") =
      NodeResult.kept spanPara0 ∧
    boxPages "3,1;5,2;4,3" = some [3, 5, 4] ∧
    spanPara0.page_start ≤ spanPara0.page_end ∧
    spanPara0.page_start ∈ ([3, 5, 4] : List Int) ∧
    spanPara0.page_end ∈ ([3, 5, 4] : List Int) := by
  have h : processParaNode "x" none (some "3,1;5,2;4,3") =
      NodeResult.kept spanPara0 := by decide
  have h3 := claim_C2_theorem.2.2.1 "x" none "3,1;5,2;4,3" spanPara0
    [3, 5, 4] h (by decide) (by decide)
  exact ⟨h, by decide,
    claim_C2_theorem.1 "x" none (some "3,1;5,2;4,3") spanPara0 h,
    h3.1, h3.2.1⟩

/-! ### Supporting lemmas for the slug claim -/

theorem mem_replaceRunsAux (p : Char → Bool) (r : Char) :
    ∀ (l : List Char) (b : Bool) (c : Char),
      c ∈ replaceRunsAux p r b l → c = r ∨ (c ∈ l ∧ p c = false) := by
  intro l
  induction l with
  | nil => intro b c hc; simp [replaceRunsAux] at hc
  | cons x xs ih =>
    intro b c hc
    simp only [replaceRunsAux] at hc
    by_cases hx : p x = true
    · rw [if_pos hx] at hc
      rcases List.mem_append.mp hc with h1 | h2
      · cases b
        · simp at h1
          exact Or.inl h1
        · simp at h1
      · rcases ih true c h2 with h | ⟨hmem, hpc⟩
        · exact Or.inl h
        · exact Or.inr ⟨List.mem_cons_of_mem _ hmem, hpc⟩
    · rw [if_neg hx] at hc
      rcases List.mem_cons.mp hc with h1 | h2
      · subst h1
        exact Or.inr ⟨List.mem_cons_self _ _, by simpa using hx⟩
      · rcases ih false c h2 with h | ⟨hmem, hpc⟩
        · exact Or.inl h
        · exact Or.inr ⟨List.mem_cons_of_mem _ hmem, hpc⟩

theorem chain_replaceRunsAux (p : Char → Bool) (r : Char) :
    ∀ (l : List Char) (b : Bool),
      List.Chain' (fun a c => ¬(p a = true ∧ p c = true))
        (replaceRunsAux p r b l) ∧
      (b = true → ∀ y, (replaceRunsAux p r b l).head? = some y →
        p y = false) := by
  intro l
  induction l with
  | nil =>
    intro b
    refine ⟨by simp [replaceRunsAux], ?_⟩
    intro hb y hy
    simp [replaceRunsAux] at hy
  | cons x xs ih =>
    intro b
    by_cases hx : p x = true
    · cases b
      · have hout : replaceRunsAux p r false (x :: xs) =
            r :: replaceRunsAux p r true xs := by
          simp [replaceRunsAux, hx]
        rw [hout]
        refine ⟨?_, ?_⟩
        · rw [List.chain'_cons']
          refine ⟨?_, (ih true).1⟩
          intro y hy hcontra
          have hpy := (ih true).2 rfl y hy
          exact absurd hcontra.2 (by simp [hpy])
        · intro hb
          simp at hb
      · have hout : replaceRunsAux p r true (x :: xs) =
            replaceRunsAux p r true xs := by
          simp [replaceRunsAux, hx]
        rw [hout]
        exact ⟨(ih true).1, fun _ => (ih true).2 rfl⟩
    · have hout : ∀ b', replaceRunsAux p r b' (x :: xs) =
          x :: replaceRunsAux p r false xs := by
        intro b'
        simp [replaceRunsAux, hx]
      rw [hout]
      refine ⟨?_, ?_⟩
      · rw [List.chain'_cons']
        refine ⟨?_, (ih false).1⟩
        intro y hy hcontra
        exact absurd hcontra.1 hx
      · intro hb y hy
        simp only [List.head?_cons, Option.some.injEq] at hy
        subst hy
        simpa using hx

theorem stripChar_isInfix (c : Char) (l : List Char) : stripChar c l <:+: l := by
  have h1 : l.dropWhile (fun x => x = c) <:+ l :=
    List.dropWhile_suffix (fun x => x = c)
  have h2 : (l.dropWhile (fun x => x = c)).reverse.dropWhile
      (fun x => x = c) <:+ (l.dropWhile (fun x => x = c)).reverse :=
    List.dropWhile_suffix (fun x => x = c)
  obtain ⟨v, hv⟩ := h1
  obtain ⟨w, hw⟩ := h2
  refine ⟨v, w.reverse, ?_⟩
  unfold stripChar
  calc v ++ ((l.dropWhile (fun x => x = c)).reverse.dropWhile
        (fun x => x = c)).reverse ++ w.reverse
      = v ++ (((l.dropWhile (fun x => x = c)).reverse.dropWhile
          (fun x => x = c)).reverse ++ w.reverse) := by
        rw [List.append_assoc]
    _ = v ++ (w ++ (l.dropWhile (fun x => x = c)).reverse.dropWhile
          (fun x => x = c)).reverse := by
        rw [List.reverse_append]
    _ = v ++ (l.dropWhile (fun x => x = c)).reverse.reverse := by rw [hw]
    _ = v ++ l.dropWhile (fun x => x = c) := by rw [List.reverse_reverse]
    _ = l := hv

theorem head?_stripChar (c : Char) (l : List Char) :
    ∀ x, (stripChar c l).head? = some x → x ≠ c := by
  intro x hx
  unfold stripChar at hx
  rw [List.head?_reverse] at hx
  have h2 : (l.dropWhile (fun x => x = c)).reverse.dropWhile
      (fun x => x = c) <:+ (l.dropWhile (fun x => x = c)).reverse :=
    List.dropWhile_suffix (fun x => x = c)
  obtain ⟨w, hw⟩ := h2
  have hx' : (l.dropWhile (fun x => x = c)).reverse.getLast? = some x := by
    rw [← hw, List.getLast?_append, hx]
    rfl
  rw [List.getLast?_reverse] at hx'
  have hm := List.head?_dropWhile_not (fun x => x = c) l
  rw [hx'] at hm
  simpa using hm

theorem getLast?_stripChar (c : Char) (l : List Char) :
    ∀ x, (stripChar c l).getLast? = some x → x ≠ c := by
  intro x hx
  unfold stripChar at hx
  rw [List.getLast?_reverse] at hx
  have hm := List.head?_dropWhile_not (fun x => x = c)
    (l.dropWhile (fun x => x = c)).reverse
  rw [hx] at hm
  simpa using hm

theorem slugify_char_class :
    ∀ (s : String) (c : Char), c ∈ (_slugify s).data →
      ('a' ≤ c ∧ c ≤ 'z') ∨ ('0' ≤ c ∧ c ≤ '9') ∨ c = '-' := by
  intro s c hc
  by_cases hdash : c = '-'
  · exact Or.inr (Or.inr hdash)
  have hc4 : c ∈ replaceRuns (fun x => x = '-') '-'
      (replaceRuns pyIsSpace '-'
        ((s.data.map Char.toLower).filter slugKeep)) :=
    ((stripChar_isInfix '-' _).sublist.subset) hc
  rcases mem_replaceRunsAux (fun x => x = '-') '-' _ false c hc4 with
    h | ⟨hc3, hnd⟩
  · exact absurd h hdash
  rcases mem_replaceRunsAux pyIsSpace '-' _ false c hc3 with h | ⟨hc2, hns⟩
  · exact absurd h hdash
  have hk : slugKeep c = true := (List.mem_filter.mp hc2).2
  simp only [slugKeep, pyIsSpace] at hk
  simp only [pyIsSpace] at hns
  rw [hns] at hk
  simp only [Bool.or_false, Bool.or_eq_true, Bool.and_eq_true,
    decide_eq_true_eq] at hk
  rcases hk with h | h
  · rcases h with h | h
    · exact Or.inl h
    · exact Or.inr (Or.inl h)
  · exact absurd h hdash

theorem slugify_no_double_hyphen :
    ∀ s : String, ¬ (['-', '-'] <:+: (_slugify s).data) := by
  intro s hinf
  have hchain0 := (chain_replaceRunsAux (fun x => x = '-') '-'
    (replaceRuns pyIsSpace '-'
      ((s.data.map Char.toLower).filter slugKeep)) false).1
  have hchain := hchain0.infix (stripChar_isInfix '-' _)
  have h2 := hchain.infix hinf
  exact (List.chain'_cons.mp h2).1 ⟨by decide, by decide⟩

/-- Claim C6: `slugify` is pure and total (a Lean function), its output
contains only lowercase ASCII letters, digits and hyphens, never two
adjacent hyphens, never a leading or trailing hyphen, and
`slugify("Deep Learning: A Survey! (2020)") =
"deep-learning-a-survey-2020"`. -/
theorem claim_C6_theorem :
    _slugify "Deep Learning: A Survey! (2020)" =
      "deep-learning-a-survey-2020" ∧
    (∀ (s : String) (c : Char), c ∈ (_slugify s).data →
      ('a' ≤ c ∧ c ≤ 'z') ∨ ('0' ≤ c ∧ c ≤ '9') ∨ c = '-') ∧
    (∀ s : String, ¬ (['-', '-'] <:+: (_slugify s).data)) ∧
    (∀ (s : String) (x : Char),
      ((_slugify s).data.head? = some x → x ≠ '-') ∧
      ((_slugify s).data.getLast? = some x → x ≠ '-')) :=
  ⟨by decide, slugify_char_class, slugify_no_double_hyphen,
   fun s x => ⟨head?_stripChar '-' _ x, getLast?_stripChar '-' _ x⟩⟩

/-- Witness for claim C6 at the claim's example string and the character
'd' of its output. -/
theorem claim_C6_witness :
    'd' ∈ (_slugify "Deep Learning: A Survey! (2020)").data ∧
    (('a' ≤ 'd' ∧ 'd' ≤ 'z') ∨ ('0' ≤ 'd' ∧ 'd' ≤ '9') ∨ 'd' = '-') ∧
    ¬ (['-', '-'] <:+:
        (_slugify "Deep Learning: A Survey! (2020)").data) ∧
    ((_slugify "Deep Learning: A Survey! (2020)").data.head? = some 'd' →
      'd' ≠ '-') := by
  refine ⟨by decide, ?_, ?_, ?_⟩
  · exact claim_C6_theorem.2.1 "Deep Learning: A Survey! (2020)" 'd'
      (by decide)
  · exact claim_C6_theorem.2.2.1 "Deep Learning: A Survey! (2020)"
  · exact (claim_C6_theorem.2.2.2 "Deep Learning: A Survey! (2020)" 'd').1

end Vigyan
